import Mathlib

/-! Verification of `golem-worker-executor-base/src/services/component.rs`: a shallow
embedding of the component resolution and compilation cache, its two fetch backends
(streaming gRPC registry, local filesystem store) and the metadata decode pipeline.
Machine strings are modelled as `List Char` (file names are ASCII, so Rust's byte
slicing coincides with character slicing); async effects are modelled by passing the
outcome of each external call (registry responses, filesystem contents, engine
results) explicitly as inputs, and the in-process caches as association lists. -/

/-- Opaque 128-bit identifier, rendered into file-name prefixes via `Display`;
modelled by its rendered character sequence. -/
abbrev ComponentId := List Char

/-- Monotonic unsigned 64-bit version assigned by the registry. -/
abbrev ComponentVersion := Nat

/-- `ComponentType` flavor, `{Durable, Ephemeral}` (golem_common::model). -/
inductive ComponentType where
  | durable
  | ephemeral
deriving DecidableEq, Repr

/-- `InitialComponentFilePermissions`, `{ReadOnly, ReadWrite}` (golem_common::model). -/
inductive InitialComponentFilePermissions where
  | readOnly
  | readWrite
deriving DecidableEq, Repr

/-- `InitialComponentFile`: key, validated absolute path, permissions. -/
structure InitialComponentFile where
  key : String
  path : List Char
  permissions : InitialComponentFilePermissions
deriving DecidableEq, Repr

/-- The gRPC `LinearMemory` proto: initial and optional maximum size in bytes. -/
structure LinearMemory where
  initial : Nat
  maximum : Option Nat
deriving DecidableEq, Repr

/-- Opaque structural summary of one analysed export (golem_wasm_ast); the claims
never inspect its internals so it is modelled by an opaque tag. -/
structure AnalysedExport where
  name : String
deriving DecidableEq, Repr

/-- The canonical `ComponentMetadata` record of `component.rs` (lines 57-65). -/
structure ComponentMetadata where
  version : ComponentVersion
  size : Nat
  memories : List LinearMemory
  exports : List AnalysedExport
  componentType : ComponentType
  files : List InitialComponentFile
deriving DecidableEq, Repr

/-- `ComponentKey` (component.rs lines 118-122): the cache key. -/
structure ComponentKey where
  componentId : ComponentId
  componentVersion : ComponentVersion
deriving DecidableEq, Repr

/-- Opaque compiled artifact (`wasmtime::component::Component`); the engine is
outside the embedding so the artifact is modelled by an opaque tag. -/
structure Component where
  tag : Nat
deriving DecidableEq, Repr

/-- Opaque registry domain-error payload (the `ComponentError` proto). -/
structure ComponentError where
  msg : String
deriving DecidableEq, Repr

/-- Modelled from the spec: the transport/domain error classification of a gRPC call
(`crate::grpc::GrpcError`, outside src/). `domain` is a registry domain error,
`unexpected` a schema/protocol violation, `transport` a transport or status failure
carrying whether it is a well-known transient condition (spec section 4.5). -/
inductive GrpcError where
  | domain (e : ComponentError)
  | unexpected (msg : String)
  | transport (msg : String) (transient : Bool)
deriving DecidableEq, Repr

/-- Modelled from the spec: the textual rendering of a `GrpcError` used when it is
wrapped into a caller-visible error reason (the `Display` impl lives in
`crate::grpc`, outside src/; only the carried message matters to the claims). -/
def GrpcError.display : GrpcError → String
  | .domain e => String.append "Domain error: " e.msg
  | .unexpected m => String.append "Unexpected error: " m
  | .transport m _ => String.append "Transport error: " m

/-- Modelled from the spec (section 7): the error taxonomy surfaced to callers
(`crate::error::GolemError`, outside src/); the variants and their fields match the
constructor sites visible in component.rs. -/
inductive GolemError where
  | componentDownloadFailed (componentId : ComponentId) (componentVersion : ComponentVersion) (reason : String)
  | componentParseFailed (componentId : ComponentId) (componentVersion : ComponentVersion) (reason : String)
  | getLatestVersionOfComponentFailed (componentId : ComponentId) (reason : String)
  | unknown (details : String)
  | unexpected (message : String)
deriving DecidableEq, Repr

/-- Is this caller-visible error the `Unexpected{message}` kind? -/
def GolemError.isUnexpected : GolemError → Bool
  | .unexpected _ => true
  | _ => false

/-- Is this error `ComponentDownloadFailed` for the given id and version? -/
def GolemError.isDownloadFailedFor (cid : ComponentId) (v : ComponentVersion) : GolemError → Bool
  | .componentDownloadFailed cid2 v2 _ => cid2 = cid && v2 = v
  | _ => false

/-- Does the result, when it is an error, satisfy the given predicate? -/
def errSatisfies {ε α : Type} (p : ε → Bool) : Except ε α → Bool
  | .error e => p e
  | .ok _ => true

/-- Modelled from the spec: `is_grpc_retriable` (crate::grpc, outside src/)
classifies an error as retryable iff the transport reports a well-known transient
condition; domain errors and schema violations are non-retryable (section 4.5). -/
def isGrpcRetriable : GrpcError → Bool
  | .transport _ transient => transient
  | _ => false

/-- Modelled from the spec: `with_retries` (golem_common::retries, outside src/).
One attempt input is consumed per try; `rest` holds the inputs of the remaining
permitted attempts (so `rest.length + 1` is `max_attempts`). A retryable error with
attempts remaining retries; otherwise the error is returned. Backoff timing is
abstracted away. -/
def withRetries {R E A : Type} (retriable : E → Bool) (body : R → Except E A) :
    R → List R → Except E A
  | r, rest =>
    match body r with
    | .ok a => .ok a
    | .error e =>
      match rest with
      | [] => .error e
      | r2 :: rs => if retriable e then withRetries retriable body r2 rs else .error e

/-- A transport-level failure of one RPC attempt: message and transient flag. -/
abbrev TransportFailure := String × Bool

/-- The `download_component_response::Result` oneof: a chunk of bytes or a domain
error. Bytes are modelled as `List Nat`. -/
inductive DownloadComponentResult where
  | successChunk (chunk : List Nat)
  | error (e : ComponentError)
deriving DecidableEq, Repr

/-- One streamed frame; `none` models a frame whose `result` oneof is unset. -/
abbrev DownloadFrame := Option DownloadComponentResult

/-- The per-frame classification of `download_via_grpc` (component.rs lines 356-364):
an unset oneof is the protocol error `Empty response`, a domain error frame fails,
a success frame yields its chunk. -/
def processDownloadChunk : DownloadFrame → Except GrpcError (List Nat)
  | none => .error (.unexpected "Empty response")
  | some (.successChunk c) => .ok c
  | some (.error e) => .error (.domain e)

/-- The `collect::<Result<Vec<Vec<u8>>, _>>()` of component.rs line 365: frames are
processed in order and the first failing frame aborts the collection. -/
def collectChunks : List DownloadFrame → Except GrpcError (List (List Nat))
  | [] => .ok []
  | f :: rest =>
    match processDownloadChunk f with
    | .error e => .error e
    | .ok c =>
      match collectChunks rest with
      | .error e => .error e
      | .ok cs => .ok (c :: cs)

/-- One download attempt (component.rs lines 340-372): the RPC itself may fail at
the transport level; otherwise the collected chunks are flattened in order. -/
def downloadBody : Except TransportFailure (List DownloadFrame) → Except GrpcError (List Nat)
  | .error (msg, transient) => .error (.transport msg transient)
  | .ok frames =>
    match collectChunks frames with
    | .error e => .error e
    | .ok chunks => .ok chunks.flatten

/-- `grpc_component_download_error` (component.rs lines 507-517). -/
def grpcComponentDownloadError (error : GrpcError) (cid : ComponentId) (v : ComponentVersion) : GolemError :=
  .componentDownloadFailed cid v error.display

/-- `grpc_get_latest_version_error` (component.rs lines 519-527). -/
def grpcGetLatestVersionError (error : GrpcError) (cid : ComponentId) : GolemError :=
  .getLatestVersionOfComponentFailed cid error.display

/-- `download_via_grpc` (component.rs lines 322-378): the retried streaming download,
whose terminal error is classified as `ComponentDownloadFailed`. The attempt inputs
`r, rs` are the outcomes the registry would serve to the successive attempts. -/
def downloadViaGrpc (cid : ComponentId) (v : ComponentVersion)
    (r : Except TransportFailure (List DownloadFrame))
    (rs : List (Except TransportFailure (List DownloadFrame))) : Except GolemError (List Nat) :=
  (withRetries isGrpcRetriable downloadBody r rs).mapError
    (fun e => grpcComponentDownloadError e cid v)

/-- The `VersionedComponentId` proto wrapper. -/
structure VersionedComponentId where
  componentId : Option ComponentId
  version : ComponentVersion
deriving DecidableEq, Repr

/-- The per-file entry of the `Component` proto view: raw key, raw path text and the
raw permissions enum tag (an `i32`). -/
structure ProtoInitialComponentFile where
  key : String
  path : List Char
  permissions : Int
deriving DecidableEq, Repr

/-- The nested `metadata` message of the component view: memories, plus each export
proto together with the outcome of its partial `AnalysedExport::try_from` conversion
(the conversion itself lives in golem_wasm_ast, outside src/, so an export is
modelled as convertible (`some`) or not (`none`)). -/
structure ProtoComponentMetadata where
  memories : List LinearMemory
  exports : List (Option AnalysedExport)
deriving DecidableEq, Repr

/-- The registry `Component` view (spec section 6.1). -/
structure ProtoComponent where
  versionedComponentId : Option VersionedComponentId
  componentSize : Nat
  componentType : Option Int
  metadata : Option ProtoComponentMetadata
  files : List ProtoInitialComponentFile
deriving DecidableEq, Repr

/-- The `get_component_metadata_response::Result` oneof. -/
inductive GetComponentMetadataResult where
  | success (component : Option ProtoComponent)
  | error (e : ComponentError)
deriving DecidableEq, Repr

/-- A whole metadata RPC response; `none` models an unset oneof. -/
structure GetComponentMetadataResponse where
  result : Option GetComponentMetadataResult
deriving DecidableEq, Repr

/-- Rust's `char::is_ascii_digit`-restricted split: the pieces of `s` delimited by
`c`, matching `str::split` (an empty input yields one empty piece). -/
def splitOnChar (c : Char) : List Char → List (List Char)
  | [] => [[]]
  | x :: xs =>
    let rest := splitOnChar c xs
    if x = c then [] :: rest
    else
      match rest with
      | r :: rs => (x :: r) :: rs
      | [] => [[x]]

/-- Modelled from the spec (section 3): `InitialComponentFilePath::from_str`
(golem_common, outside src/) accepts a path with a leading `/` and no `.` or `..`
segments, and fails otherwise. -/
def parseInitialComponentFilePath (s : List Char) : Option (List Char) :=
  match s with
  | '/' :: rest =>
    if (splitOnChar '/' rest).all (fun seg => !(seg == ['.']) && !(seg == ['.', '.'])) then
      some s
    else none
  | _ => none

/-- Modelled from the spec: the proto permissions enum tags (`ReadOnly`, `ReadWrite`);
any other tag is out of range and fails the `try_into` of component.rs line 472. -/
def decodeFilePermissions (p : Int) : Option InitialComponentFilePermissions :=
  if p = 0 then some .readOnly
  else if p = 1 then some .readWrite
  else none

/-- Modelled from the spec (section 3): the prost accessor `component_type()` used at
component.rs line 450 decodes the raw enum tag, with Durable as the default when the
field is unset or out of range. -/
def protoComponentTypeAccessor : Option Int → ComponentType
  | some 1 => .ephemeral
  | _ => .durable

/-- The per-file decode of component.rs lines 470-492: an out-of-range permissions
tag or an unparseable path collapses to `Unexpected`. -/
def decodeProtoFile (f : ProtoInitialComponentFile) : Except GrpcError InitialComponentFile :=
  match decodeFilePermissions f.permissions with
  | none => .error (.unexpected "Failed to get the file permissions")
  | some permissions =>
    match parseInitialComponentFilePath f.path with
    | none => .error (.unexpected "Failed to get the file path")
    | some path => .ok { key := f.key, path := path, permissions := permissions }

/-- The exports decode of component.rs lines 456-467: absent metadata defaults to no
exports; any failed export conversion collapses the whole decode. -/
def decodeExports : Option ProtoComponentMetadata → Except GrpcError (List AnalysedExport)
  | none => .ok []
  | some md =>
    match md.exports.mapM (fun e => e) with
    | some es => .ok es
    | none => .error (.unexpected "Failed to get the exports")

/-- The component-view decode of component.rs lines 441-494: version from the
versioned-component-id wrapper (missing fails), size and type mapped directly,
memories defaulting to empty, exports and files through their partial decodes. -/
def decodeProtoComponent (c : ProtoComponent) : Except GrpcError ComponentMetadata :=
  match c.versionedComponentId with
  | none => .error (.unexpected "Undefined component version")
  | some vid =>
    match decodeExports c.metadata with
    | .error e => .error e
    | .ok exports =>
      match c.files.mapM decodeProtoFile with
      | .error e => .error e
      | .ok files =>
        .ok { version := vid.version
              size := c.componentSize
              memories := (c.metadata.map (fun md => md.memories)).getD []
              exports := exports
              componentType := protoComponentTypeAccessor c.componentType
              files := files }

/-- The response unwrap of component.rs lines 429-439: an unset oneof is the
protocol error `Empty response`, a missing component payload and schema violations
are `Unexpected`, a domain error frame is `Domain`. -/
def decodeMetadataResponse (r : GetComponentMetadataResponse) : Except GrpcError ComponentMetadata :=
  match r.result with
  | none => .error (.unexpected "Empty response")
  | some (.error e) => .error (.domain e)
  | some (.success none) => .error (.unexpected "No component information in response")
  | some (.success (some c)) => decodeProtoComponent c

/-- One metadata attempt (component.rs lines 400-499): a transport failure of the
RPC itself, or the decoded response. -/
def metadataBody : Except TransportFailure GetComponentMetadataResponse → Except GrpcError ComponentMetadata
  | .error (msg, transient) => .error (.transport msg transient)
  | .ok resp => decodeMetadataResponse resp

/-- `get_metadata_via_grpc` (component.rs lines 380-505): the retried metadata fetch
and decode, whose terminal error is classified by `grpc_get_latest_version_error`.
Which of the two RPCs is issued (versioned or latest) is determined by the caller's
forced version; here the responses the registry serves are the inputs `r, rs`. -/
def getMetadataViaGrpc (cid : ComponentId)
    (r : Except TransportFailure GetComponentMetadataResponse)
    (rs : List (Except TransportFailure GetComponentMetadataResponse)) : Except GolemError ComponentMetadata :=
  (withRetries isGrpcRetriable metadataBody r rs).mapError
    (fun e => grpcGetLatestVersionError e cid)

/-- Association-list lookup used to model the in-process caches. -/
def lookupKey {K V : Type} [DecidableEq K] : List (K × V) → K → Option V
  | [], _ => none
  | (k2, v) :: rest, k => if k2 = k then some v else lookupKey rest k

/-- Modelled from the spec (section 4.1): the sequential (single-caller) semantics of
`Cache::get_or_insert_simple` (golem_common::cache, outside src/): a present key
returns the stored value, a miss runs the producer, an `Ok` is stored, an `Err` is
delivered but never cached. LRU recency and background eviction are abstracted away. -/
def getOrInsertSimple {K V E : Type} [DecidableEq K] (cache : List (K × V)) (k : K)
    (producer : Except E V) : Except E V × List (K × V) :=
  match lookupKey cache k with
  | some v => (.ok v, cache)
  | none =>
    match producer with
    | .ok v => (.ok v, (k, v) :: cache)
    | .error e => (.error e, cache)

/-- The externally observable work of one component-cache producer run. -/
inductive ProducerAction where
  | download
  | compile
  | putCompiled
deriving DecidableEq, Repr

/-- `getOrInsertSimple` instrumented with the producer's action trace: a cache hit
performs no producer work. -/
def getOrInsertTraced {K V E : Type} [DecidableEq K] (cache : List (K × V)) (k : K)
    (producer : Except E V × List ProducerAction) : Except E V × List (K × V) × List ProducerAction :=
  match lookupKey cache k with
  | some v => (.ok v, cache, [])
  | none =>
    match producer with
    | (.ok v, tr) => (.ok v, (k, v) :: cache, tr)
    | (.error e, tr) => (.error e, cache, tr)

/-- The metadata cache of either facade. -/
abbrev MetaCache := List (ComponentKey × ComponentMetadata)

/-- The responses the registry serves to the successive attempts of one retried
metadata RPC. -/
structure MdChain where
  first : Except TransportFailure GetComponentMetadataResponse
  rest : List (Except TransportFailure GetComponentMetadataResponse)

/-- `ComponentServiceGrpc::get_metadata` (component.rs lines 263-319): a forced
version consults the metadata cache under `(id, v)` with the RPC as producer; a
latest request performs the RPC first (no cache probe) and then files the result
under `(id, metadata.version)`. -/
def ComponentServiceGrpc.getMetadata (cid : ComponentId) (forcedVersion : Option ComponentVersion)
    (chain : MdChain) (cache : MetaCache) : Except GolemError ComponentMetadata × MetaCache :=
  match forcedVersion with
  | some v =>
    getOrInsertSimple cache { componentId := cid, componentVersion := v }
      (getMetadataViaGrpc cid chain.first chain.rest)
  | none =>
    match getMetadataViaGrpc cid chain.first chain.rest with
    | .error e => (.error e, cache)
    | .ok metadata =>
      getOrInsertSimple cache { componentId := cid, componentVersion := metadata.version }
        (.ok metadata)

/-- The outcomes of the external calls one remote `get` may perform: the
compiled-artifact store probe, the streamed download attempts, the blocking-offload
join, the engine compile (wasmtime, outside the embedding), the best-effort store
write-back, and the metadata RPC attempts. -/
structure RemoteGetEnv where
  compiledGet : Except String (Option Component)
  downloadFirst : Except TransportFailure (List DownloadFrame)
  downloadRest : List (Except TransportFailure (List DownloadFrame))
  joinResult : Option String
  compileResult : List Nat → Except String Component
  putResult : Except String Unit
  mdChain : MdChain

/-- The component-cache producer of `ComponentServiceGrpc::get` (component.rs lines
192-253): consult the compiled store (errors logged and treated as a miss), else
download, compile on the blocking pool (a failed join is `Unknown`, a failed compile
is `ComponentParseFailed`), then best-effort `put` (its error ignored). -/
def componentProducerGrpc (env : RemoteGetEnv) (cid : ComponentId) (v : ComponentVersion) :
    Except GolemError Component × List ProducerAction :=
  let fromStore : Option Component :=
    match env.compiledGet with
    | .ok c => c
    | .error _ => none
  match fromStore with
  | some component => (.ok component, [])
  | none =>
    match downloadViaGrpc cid v env.downloadFirst env.downloadRest with
    | .error e => (.error e, [.download])
    | .ok bytes =>
      match env.joinResult with
      | some joinErr => (.error (.unknown joinErr), [.download])
      | none =>
        match env.compileResult bytes with
        | .error reason => (.error (.componentParseFailed cid v reason), [.download, .compile])
        | .ok component =>
          match env.putResult with
          | .ok _ => (.ok component, [.download, .compile, .putCompiled])
          | .error _ => (.ok component, [.download, .compile, .putCompiled])

/-- The two caches owned by the remote facade. -/
structure RemoteState where
  componentCache : List (ComponentKey × Component)
  metadataCache : MetaCache

/-- `ComponentServiceGrpc::get` (component.rs lines 173-261): resolve the artifact
through the component cache, then fetch the metadata for the same version through
`get_metadata`; either failure is returned to the caller. -/
def ComponentServiceGrpc.get (env : RemoteGetEnv) (cid : ComponentId) (v : ComponentVersion)
    (st : RemoteState) :
    Except GolemError (Component × ComponentMetadata) × RemoteState × List ProducerAction :=
  let key : ComponentKey := { componentId := cid, componentVersion := v }
  match getOrInsertTraced st.componentCache key (componentProducerGrpc env cid v) with
  | (.error e, cc2, tr) => (.error e, { componentCache := cc2, metadataCache := st.metadataCache }, tr)
  | (.ok component, cc2, tr) =>
    match ComponentServiceGrpc.getMetadata cid (some v) env.mdChain st.metadataCache with
    | (.error e, mc2) => (.error e, { componentCache := cc2, metadataCache := mc2 }, tr)
    | (.ok metadata, mc2) => (.ok (component, metadata), { componentCache := cc2, metadataCache := mc2 }, tr)

/-- A JSON document tree; `serde_json::from_str::<T>` is modelled as the text-to-tree
parse (abstracted away) followed by the typed decode of the tree. -/
inductive Json where
  | str (s : String)
  | num (n : Int)
  | bool (b : Bool)
  | null
  | arr (elems : List Json)
  | obj (fields : List (String × Json))

/-- First field of the given name in a JSON object, as serde reads it. -/
def jsonLookup (fields : List (String × Json)) (name : String) : Option Json :=
  match fields with
  | [] => none
  | (n, v) :: rest => if n = name then some v else jsonLookup rest name

/-- Modelled from the spec: the serde decode of `ComponentType` (golem_common,
outside src/) — a unit enum variant decodes from its name as a JSON string
(section 6.2: `"Durable" | "Ephemeral"`). -/
def ComponentType.fromJson : Json → Option ComponentType
  | .str "Durable" => some .durable
  | .str "Ephemeral" => some .ephemeral
  | _ => none

/-- Modelled from the spec: the serde decode of the permissions enum (section 6.2:
`"ReadOnly" | "ReadWrite"`). -/
def InitialComponentFilePermissions.fromJson : Json → Option InitialComponentFilePermissions
  | .str "ReadOnly" => some .readOnly
  | .str "ReadWrite" => some .readWrite
  | _ => none

/-- Modelled from the spec: the serde decode of `InitialComponentFile`
(golem_common, outside src/): fields `key` (string), `path` (string validated by the
path grammar) and `permissions` (section 6.2). -/
def InitialComponentFile.fromJson : Json → Option InitialComponentFile
  | .obj fields =>
    match jsonLookup fields "key", jsonLookup fields "path", jsonLookup fields "permissions" with
    | some (.str k), some (.str p), some pj =>
      match InitialComponentFilePermissions.fromJson pj, parseInitialComponentFilePath p.data with
      | some permissions, some path => some { key := k, path := path, permissions := permissions }
      | _, _ => none
    | _, _, _ => none
  | _ => none

/-- A JSON array of initial-file entries. -/
def jsonFileList : Json → Option (List InitialComponentFile)
  | .arr xs => xs.mapM InitialComponentFile.fromJson
  | _ => none

/-- The deserialization the source actually performs at component.rs line 788:
`serde_json::from_str::<(ComponentType, Vec<InitialComponentFile>)>` — serde decodes
a Rust tuple from a JSON array of exactly two elements, never from an object. -/
def parsePropsTuple : Json → Option (ComponentType × List InitialComponentFile)
  | .arr [tj, fj] =>
    match ComponentType.fromJson tj, jsonFileList fj with
    | some ct, some fs => some (ct, fs)
    | _, _ => none
  | _ => none

/-- The serde decode of the `ComponentProperties` struct declared (but not used by
the reader) at component.rs lines 817-822: a JSON object with camelCase field names
`componentType` and `files`, the shape of spec section 6.2. -/
def ComponentProperties.fromJson : Json → Option (ComponentType × List InitialComponentFile)
  | .obj fields =>
    match jsonLookup fields "componentType", jsonLookup fields "files" with
    | some tj, some fj =>
      match ComponentType.fromJson tj, jsonFileList fj with
      | some ct, some fs => some (ct, fs)
      | _, _ => none
    | _, _ => none
  | _ => none

/-- `read_component_metadata_from_props_file` (component.rs lines 786-789): the
sidecar text is read and fed to serde; `doc` is the parsed JSON tree, `none` when
the file is unreadable or not valid JSON. -/
def readComponentMetadataFromPropsFile (doc : Option Json) :
    Option (ComponentType × List InitialComponentFile) :=
  doc.bind parsePropsTuple

/-- JSON encoding of `ComponentType` per spec section 6.2. -/
def ComponentType.toJson : ComponentType → Json
  | .durable => .str "Durable"
  | .ephemeral => .str "Ephemeral"

/-- JSON encoding of the permissions enum per spec section 6.2. -/
def InitialComponentFilePermissions.toJson : InitialComponentFilePermissions → Json
  | .readOnly => .str "ReadOnly"
  | .readWrite => .str "ReadWrite"

/-- JSON encoding of one initial-file entry per spec section 6.2. -/
def InitialComponentFile.toJson (f : InitialComponentFile) : Json :=
  .obj [("key", .str f.key), ("path", .str (String.mk f.path)), ("permissions", f.permissions.toJson)]

/-- Modelled from the spec (section 6.2): the well-formed sidecar document — a JSON
object with camelCase fields `componentType` and `files`. -/
def specSidecarJson (ct : ComponentType) (files : List InitialComponentFile) : Json :=
  .obj [("componentType", ct.toJson), ("files", .arr (files.map InitialComponentFile.toJson))]

/-- Rust's `str::parse::<u64>`: an optional single leading `+`, then at least one
ASCII digit, value bounded by `u64::MAX` (overflow fails). -/
def parseU64 (s : List Char) : Option Nat :=
  let digits : List Char :=
    match s with
    | '+' :: rest => rest
    | _ => s
  if digits = [] then none
  else if digits.all Char.isDigit then
    let n := digits.foldl (fun acc c => acc * 10 + (c.toNat - 48)) 0
    if n < 2 ^ 64 then some n else none
  else none

/-- `ComponentServiceLocalFileSystem::extract_version` (component.rs lines 781-784):
the last `-`-separated token of the base file name, parsed as a decimal u64. -/
def extractVersion (fileName : List Char) : Option ComponentVersion :=
  ((splitOnChar '-' fileName).getLast?).bind parseU64

/-- The `.wasm` extension. -/
def wasmExt : List Char := ['.', 'w', 'a', 's', 'm']

/-- The `.json` extension. -/
def jsonExt : List Char := ['.', 'j', 's', 'o', 'n']

/-- The per-entry filter of the discovery loop (component.rs lines 604-619): keep a
directory entry iff its name starts with the `{id}-` prefix and ends in `.wasm` and
the trailing dash-delimited token of the base name parses as a decimal u64; the kept
entry carries the version, the wasm file name and the sidecar `{base}.json` name
(paths are modelled relative to the root directory). -/
def matchEntry (prefixCs : List Char) (name : List Char) :
    Option (ComponentVersion × List Char × List Char) :=
  if prefixCs.isPrefixOf name && wasmExt.isSuffixOf name then
    let base := name.take (name.length - 5)
    match extractVersion base with
    | some v => some (v, name, base ++ jsonExt)
    | none => none
  else none

/-- The `matching_files` vector accumulated by the discovery loop, in directory
enumeration order (mismatches are discarded silently). -/
def findMatchingFiles (prefixCs : List Char) (dir : List (List Char)) :
    List (ComponentVersion × List Char × List Char) :=
  dir.filterMap (matchEntry prefixCs)

/-- Rust's `Iterator::max_by_key` on the version: scan keeping the running maximum,
a later element replacing an equal one (the last maximal element wins). -/
def maxByVersionAux (best : ComponentVersion × List Char × List Char) :
    List (ComponentVersion × List Char × List Char) → ComponentVersion × List Char × List Char
  | [] => best
  | e :: rest => maxByVersionAux (if best.1 > e.1 then best else e) rest

/-- `max_by_key` over the whole candidate list; `none` on an empty list. -/
def maxByVersion : List (ComponentVersion × List Char × List Char) →
    Option (ComponentVersion × List Char × List Char)
  | [] => none
  | e :: rest => some (maxByVersionAux e rest)

/-- `ComponentServiceLocalFileSystem::find_component_files` (component.rs lines
596-638): discovery over the directory listing followed by selection — the first
entry with exactly the forced version, or the maximum-version entry, failing with
`GetLatestVersionOfComponentFailed` when no candidate qualifies. -/
def findComponentFiles (cid : ComponentId) (dir : List (List Char))
    (forcedVersion : Option ComponentVersion) :
    Except GolemError (ComponentVersion × List Char × List Char) :=
  let matchingFiles := findMatchingFiles (cid ++ ['-']) dir
  match forcedVersion with
  | some fv =>
    match matchingFiles.find? (fun e => e.1 == fv) with
    | some e => .ok e
    | none => .error (.getLatestVersionOfComponentFailed cid
        "Could not find any component with the given id and version")
  | none =>
    match maxByVersion matchingFiles with
    | some e => .ok e
    | none => .error (.getLatestVersionOfComponentFailed cid
        "Could not find any component with the given id")

/-- The memory limits reported by wasm static analysis, in 64 KiB pages. -/
structure MemoryLimits where
  min : Nat
  max : Option Nat
deriving DecidableEq, Repr

/-- The result of `RawComponentMetadata::analyse_component` (golem_wasm_ast, outside
the embedding): raw memories and analysed exports. -/
structure RawComponentMetadata where
  memories : List MemoryLimits
  exports : List AnalysedExport
deriving DecidableEq, Repr

/-- The local root directory and the engine-side analysers, modelled as maps from
paths and bytes to the outcomes the external world would produce: `files` is the raw
byte content per path, `docs` the parsed JSON tree of a sidecar (none when the file
is unreadable or not valid JSON), `analyse` the wasm static analysis. -/
structure LocalFs where
  files : List Char → Option (List Nat)
  docs : List Char → Option Json
  analyse : List Nat → Option RawComponentMetadata

/-- `ComponentServiceLocalFileSystem::analyze_memories_and_exports` (component.rs
lines 758-779): read the bytes, run the static analysis, scale page counts by
65536; any failure yields `none`. -/
def analyzeMemoriesAndExports (fs : LocalFs) (path : List Char) :
    Option (List LinearMemory × List AnalysedExport) :=
  match fs.files path with
  | none => none
  | some bytes =>
    match fs.analyse bytes with
    | none => none
    | some raw =>
      some (raw.memories.map (fun mem => { initial := mem.min * 65536, maximum := mem.max.map (fun m => m * 65536) }),
            raw.exports)

/-- The metadata-cache producer of `get_metadata_from_path` (component.rs lines
729-754): the wasm file size (an unreadable file is an I/O error, surfaced as
`Unknown` through the `From<std::io::Error>` impl at lines 559-565), the static
analysis defaulting to empty memories and exports on failure, and the sidecar read
whose failure fails the whole call. -/
def getMetadataFromPathProducer (fs : LocalFs) (wasmPath propsPath : List Char)
    (cid : ComponentId) (v : ComponentVersion) : Except GolemError ComponentMetadata :=
  match fs.files wasmPath with
  | none => .error (.unknown "io error")
  | some bytes =>
    let analysed := (analyzeMemoriesAndExports fs wasmPath).getD ([], [])
    match readComponentMetadataFromPropsFile (fs.docs propsPath) with
    | none => .error (.getLatestVersionOfComponentFailed cid "Failed to read properties of component")
    | some (componentType, files) =>
      .ok { version := v
            size := bytes.length
            memories := analysed.1
            exports := analysed.2
            componentType := componentType
            files := files }

/-- `ComponentServiceLocalFileSystem::get_metadata_from_path` (component.rs lines
714-756): the producer above, memoized through the metadata cache under
`(id, version)`. -/
def ComponentServiceLocalFileSystem.getMetadataFromPath (fs : LocalFs)
    (wasmPath propsPath : List Char) (cid : ComponentId) (v : ComponentVersion)
    (cache : MetaCache) : Except GolemError ComponentMetadata × MetaCache :=
  getOrInsertSimple cache { componentId := cid, componentVersion := v }
    (getMetadataFromPathProducer fs wasmPath propsPath cid v)

/-- `ComponentServiceLocalFileSystem::get_metadata` (component.rs lines 807-814):
file discovery and selection, then the cached metadata read for the selected
version and paths. -/
def ComponentServiceLocalFileSystem.getMetadata (fs : LocalFs) (dir : List (List Char))
    (cid : ComponentId) (forcedVersion : Option ComponentVersion) (cache : MetaCache) :
    Except GolemError ComponentMetadata × MetaCache :=
  match findComponentFiles cid dir forcedVersion with
  | .error e => (.error e, cache)
  | .ok (v, wasmPath, propsPath) =>
    ComponentServiceLocalFileSystem.getMetadataFromPath fs wasmPath propsPath cid v cache

/-- The metadata-cache invariant of spec section 3: every stored value's `version`
field equals its key's version. -/
def MetaCacheVersionInv (cache : MetaCache) : Prop :=
  ∀ kv ∈ cache, (kv.2 : ComponentMetadata).version = kv.1.componentVersion

instance (cache : MetaCache) : Decidable (MetaCacheVersionInv cache) :=
  List.decidableBAll _ cache

/-- Registry response fixture: a minimal component view carrying the given version. -/
def mkProtoComponent (v : ComponentVersion) : ProtoComponent :=
  { versionedComponentId := some { componentId := none, version := v }
    componentSize := 42
    componentType := some 0
    metadata := none
    files := [] }

/-- Registry response fixture: a successful metadata response for `mkProtoComponent`. -/
def mkResp (v : ComponentVersion) : GetComponentMetadataResponse :=
  { result := some (.success (some (mkProtoComponent v))) }

/-- The metadata `mkResp v` decodes to. -/
def mkMeta (v : ComponentVersion) : ComponentMetadata :=
  { version := v, size := 42, memories := [], exports := [], componentType := .durable, files := [] }

/-- Registry response fixture: a component view whose versioned-component-id wrapper
is missing, the schema violation of claim C1. -/
def respNoVersion : GetComponentMetadataResponse :=
  { result := some (.success (some { versionedComponentId := none
                                     componentSize := 0
                                     componentType := none
                                     metadata := none
                                     files := [] })) }


/-- Local filesystem fixture: wasm bytes readable, a well-formed (array-shaped)
sidecar, but failing wasm static analysis. -/
def fsAnalysisFails : LocalFs :=
  { files := fun _ => some [0, 1, 2]
    docs := fun _ => some (.arr [.str "Durable", .arr []])
    analyse := fun _ => none }

/-- Local filesystem fixture: wasm bytes readable but the sidecar unreadable. -/
def fsSidecarMissing : LocalFs :=
  { files := fun _ => some [0, 1, 2]
    docs := fun _ => none
    analyse := fun _ => none }

/-- Metadata RPC chain fixture: a single attempt failing with a non-transient
transport error. -/
def mdChainFail : MdChain := { first := .error ("connection refused", false), rest := [] }

/-- Metadata RPC chain fixture: a single successful attempt serving `mkResp v`. -/
def mdChainOk (v : ComponentVersion) : MdChain := { first := .ok (mkResp v), rest := [] }

/-- Remote environment fixture: compiled store miss, a one-chunk download, a
successful compile to `Component 7`, and the given metadata chain. -/
def remoteEnvDownloadCompile (chain : MdChain) : RemoteGetEnv :=
  { compiledGet := .ok none
    downloadFirst := .ok [some (.successChunk [0, 1])]
    downloadRest := []
    joinResult := none
    compileResult := fun _ => .ok { tag := 7 }
    putResult := .ok ()
    mdChain := chain }

deriving instance DecidableEq for Except

/-- A non-retryable attempt error is returned as the terminal error no matter how
many attempts would remain. -/
theorem withRetries_error_of_not_retriable {R E A : Type} (retriable : E → Bool)
    (body : R → Except E A) {r : R} {rs : List R} {e : E}
    (h1 : body r = .error e) (h2 : retriable e = false) :
    withRetries retriable body r rs = .error e := by
  unfold withRetries
  rw [h1]
  cases rs with
  | nil => rfl
  | cons r2 rs2 => simp [h2]

/-- Prepending successfully processed chunks to a frame list prepends their payloads
to the collected result. -/
theorem collectChunks_success_prefix (pre : List (List Nat)) (rest : List DownloadFrame) :
    collectChunks (pre.map (fun c => some (.successChunk c)) ++ rest) =
      (collectChunks rest).map (fun cs => pre ++ cs) := by
  induction pre with
  | nil =>
    simp only [List.map_nil, List.nil_append]
    cases collectChunks rest <;> rfl
  | cons c cs ih =>
    simp only [List.map_cons, List.cons_append, collectChunks, processDownloadChunk,
      List.append_eq, ih]
    cases collectChunks rest <;> rfl

/-- C1 (amended): a metadata schema violation in the registry response fails the
decode with the internal `Unexpected{message}` classification, and the facade
surfaces it to the caller wrapped as `GetLatestVersionOfComponentFailed{id, reason}`
whose reason is the rendered `Unexpected` message — not as a top-level
`Unexpected` error. -/
theorem C1_schema_violation_wrapped_as_get_latest_failed
    (cid : ComponentId) (r : Except TransportFailure GetComponentMetadataResponse)
    (rs : List (Except TransportFailure GetComponentMetadataResponse)) (msg : String)
    (h : metadataBody r = .error (.unexpected msg)) :
    getMetadataViaGrpc cid r rs =
      .error (.getLatestVersionOfComponentFailed cid (GrpcError.display (.unexpected msg))) := by
  unfold getMetadataViaGrpc
  rw [withRetries_error_of_not_retriable isGrpcRetriable metadataBody h rfl]
  rfl

/-- C1 witness: the response whose versioned-component-id wrapper is missing decodes
to `Unexpected("Undefined component version")` and surfaces wrapped. -/
theorem C1_witness :
    metadataBody (.ok respNoVersion) = .error (.unexpected "Undefined component version")
    ∧ getMetadataViaGrpc ['c'] (.ok respNoVersion) [] =
        .error (.getLatestVersionOfComponentFailed ['c']
          (GrpcError.display (.unexpected "Undefined component version"))) :=
  ⟨rfl, C1_schema_violation_wrapped_as_get_latest_failed ['c'] (.ok respNoVersion) []
    "Undefined component version" rfl⟩

/-- C1 counterexample: on a response with the version missing from the
versioned-component-id wrapper, `get_metadata_via_grpc` returns
`GetLatestVersionOfComponentFailed`, not an `Unexpected{message}` error as the claim
states. -/
theorem C1_counterexample :
    getMetadataViaGrpc ['c'] (.ok respNoVersion) [] =
      .error (.getLatestVersionOfComponentFailed ['c']
        "Unexpected error: Undefined component version")
    ∧ errSatisfies (fun e => !(GolemError.isUnexpected e))
        (getMetadataViaGrpc ['c'] (.ok respNoVersion) []) = true :=
  ⟨rfl, rfl⟩

/-- C2 (code bug): the sidecar reader deserializes into the Rust tuple
`(ComponentType, Vec<InitialComponentFile>)`, which serde only accepts as a JSON
array of two elements — so the spec-shaped camelCase JSON object (the very shape the
file's own `ComponentProperties` struct declares) is rejected, returning `None`,
while a two-element array is accepted. -/
theorem C2_spec_shaped_sidecar_rejected :
    readComponentMetadataFromPropsFile (some (specSidecarJson .durable [])) = none
    ∧ ComponentProperties.fromJson (specSidecarJson .durable []) = some (.durable, [])
    ∧ readComponentMetadataFromPropsFile (some (.arr [.str "Durable", .arr []])) =
        some (.durable, []) :=
  ⟨rfl, rfl, rfl⟩

/-- C6 (confirmed): a streamed download yields the in-order concatenation of all
success chunks; a frame with the result oneof unset is the protocol error
`Empty response`; a domain-error frame fails the stream; and whatever error a
retried download terminates with is surfaced as `ComponentDownloadFailed` for the
requested id and version. -/
theorem C6_download_stream_semantics :
    (∀ chunks : List (List Nat),
      downloadBody (.ok (chunks.map (fun c => some (.successChunk c)))) = .ok chunks.flatten)
    ∧ (∀ (pre : List (List Nat)) (post : List DownloadFrame),
      downloadBody (.ok (pre.map (fun c => some (.successChunk c)) ++ none :: post)) =
        .error (.unexpected "Empty response"))
    ∧ (∀ (pre : List (List Nat)) (e : ComponentError) (post : List DownloadFrame),
      downloadBody (.ok (pre.map (fun c => some (.successChunk c)) ++ some (.error e) :: post)) =
        .error (.domain e))
    ∧ (∀ (cid : ComponentId) (v : ComponentVersion)
        (r : Except TransportFailure (List DownloadFrame))
        (rs : List (Except TransportFailure (List DownloadFrame))),
      errSatisfies (GolemError.isDownloadFailedFor cid v) (downloadViaGrpc cid v r rs) = true) := by
  refine ⟨?_, ?_, ?_, ?_⟩
  · intro chunks
    have h := collectChunks_success_prefix chunks []
    simp only [List.append_nil] at h
    simp [downloadBody, h, collectChunks, Except.map]
  · intro pre post
    have h := collectChunks_success_prefix pre (none :: post)
    simp only [downloadBody, h, collectChunks, processDownloadChunk, Except.map]
  · intro pre e post
    have h := collectChunks_success_prefix pre (some (.error e) :: post)
    simp only [downloadBody, h, collectChunks, processDownloadChunk, Except.map]
  · intro cid v r rs
    unfold downloadViaGrpc
    cases withRetries isGrpcRetriable downloadBody r rs with
    | ok bytes => rfl
    | error e => simp [Except.mapError, errSatisfies, grpcComponentDownloadError,
        GolemError.isDownloadFailedFor]

/-- Unfolding of the per-entry discovery filter. -/
theorem matchEntry_eq_some_iff (p name : List Char) (e : ComponentVersion × List Char × List Char) :
    matchEntry p name = some e ↔
      (p.isPrefixOf name && wasmExt.isSuffixOf name) = true ∧
      extractVersion (name.take (name.length - 5)) = some e.1 ∧
      e.2.1 = name ∧ e.2.2 = name.take (name.length - 5) ++ jsonExt := by
  obtain ⟨v, w, pr⟩ := e
  unfold matchEntry
  split
  · next hcond =>
    cases hv : extractVersion (name.take (name.length - 5)) with
    | none => simp [hcond, hv]
    | some v0 =>
      simp only [hcond, hv, Option.some.injEq, Prod.mk.injEq, true_and]
      constructor
      · rintro ⟨h1, h2, h3⟩
        exact ⟨h1, h2.symm, h3.symm⟩
      · rintro ⟨h1, h2, h3⟩
        exact ⟨h1, h2.symm, h3.symm⟩
  · next hcond =>
    simp only [Bool.not_eq_true] at hcond
    simp [hcond]

/-- Membership in the accumulated candidate list characterizes discovery: exactly
the directory entries with the id prefix, the `.wasm` suffix and a parseable
trailing version token are kept. -/
theorem mem_findMatchingFiles_iff (p : List Char) (dir : List (List Char))
    (e : ComponentVersion × List Char × List Char) :
    e ∈ findMatchingFiles p dir ↔
      ∃ name, name ∈ dir ∧ (p.isPrefixOf name && wasmExt.isSuffixOf name) = true ∧
        extractVersion (name.take (name.length - 5)) = some e.1 ∧
        e.2.1 = name ∧ e.2.2 = name.take (name.length - 5) ++ jsonExt := by
  unfold findMatchingFiles
  rw [List.mem_filterMap]
  constructor
  · rintro ⟨name, hmem, hmatch⟩
    exact ⟨name, hmem, (matchEntry_eq_some_iff p name e).mp hmatch⟩
  · rintro ⟨name, hmem, hmatch⟩
    exact ⟨name, hmem, (matchEntry_eq_some_iff p name e).mpr hmatch⟩

/-- A successful forced-version selection returns a kept entry with exactly the
forced version. -/
theorem findComponentFiles_forced_ok {cid : ComponentId} {dir : List (List Char)}
    {fv : ComponentVersion} {e : ComponentVersion × List Char × List Char}
    (h : findComponentFiles cid dir (some fv) = .ok e) :
    e.1 = fv ∧ e ∈ findMatchingFiles (cid ++ ['-']) dir := by
  unfold findComponentFiles at h
  simp only at h
  cases hf : (findMatchingFiles (cid ++ ['-']) dir).find? (fun e => e.1 == fv) with
  | none => rw [hf] at h; exact absurd h (by simp)
  | some e2 =>
    rw [hf] at h
    have he : e2 = e := by injection h
    subst he
    have hpred := List.find?_some hf
    have hmem := List.mem_of_find?_eq_some hf
    exact ⟨by simpa using hpred, hmem⟩

/-- When no kept entry carries the forced version, forced selection fails with the
`GetLatestVersionOfComponentFailed` error. -/
theorem findComponentFiles_forced_absent {cid : ComponentId} {dir : List (List Char)}
    {fv : ComponentVersion}
    (h : ∀ e ∈ findMatchingFiles (cid ++ ['-']) dir, e.1 ≠ fv) :
    findComponentFiles cid dir (some fv) =
      .error (.getLatestVersionOfComponentFailed cid
        "Could not find any component with the given id and version") := by
  unfold findComponentFiles
  simp only
  have hf : (findMatchingFiles (cid ++ ['-']) dir).find? (fun e => e.1 == fv) = none := by
    rw [List.find?_eq_none]
    intro e hmem
    simpa using h e hmem
  rw [hf]

/-- The running maximum of `max_by_key` is an element (or the seed) and bounds every
scanned element and the seed from above. -/
theorem maxByVersionAux_spec (l : List (ComponentVersion × List Char × List Char))
    (best : ComponentVersion × List Char × List Char) :
    (maxByVersionAux best l = best ∨ maxByVersionAux best l ∈ l) ∧
    best.1 ≤ (maxByVersionAux best l).1 ∧
    ∀ x ∈ l, x.1 ≤ (maxByVersionAux best l).1 := by
  induction l generalizing best with
  | nil => simp [maxByVersionAux]
  | cons e rest ih =>
    simp only [maxByVersionAux]
    by_cases hgt : best.1 > e.1
    · simp only [if_pos hgt]
      obtain ⟨hmem, hge, hall⟩ := ih best
      refine ⟨?_, hge, ?_⟩
      · rcases hmem with hmem | hmem
        · exact Or.inl hmem
        · exact Or.inr (List.mem_cons_of_mem e hmem)
      · intro x hx
        rcases List.mem_cons.mp hx with rfl | hx
        · exact le_trans (le_of_lt hgt) hge
        · exact hall x hx
    · simp only [if_neg hgt]
      obtain ⟨hmem, hge, hall⟩ := ih e
      refine ⟨?_, ?_, ?_⟩
      · rcases hmem with hmem | hmem
        · exact Or.inr (by rw [hmem]; exact List.mem_cons_self e rest)
        · exact Or.inr (List.mem_cons_of_mem e hmem)
      · exact le_trans (le_of_not_lt hgt) hge
      · intro x hx
        rcases List.mem_cons.mp hx with rfl | hx
        · exact hge
        · exact hall x hx

/-- A successful latest-version selection returns a kept entry of maximal version. -/
theorem findComponentFiles_latest_ok {cid : ComponentId} {dir : List (List Char)}
    {e : ComponentVersion × List Char × List Char}
    (h : findComponentFiles cid dir none = .ok e) :
    e ∈ findMatchingFiles (cid ++ ['-']) dir ∧
    ∀ x ∈ findMatchingFiles (cid ++ ['-']) dir, x.1 ≤ e.1 := by
  unfold findComponentFiles at h
  simp only at h
  cases hl : findMatchingFiles (cid ++ ['-']) dir with
  | nil => rw [hl] at h; exact absurd h (by simp [maxByVersion])
  | cons x xs =>
    rw [hl] at h
    simp only [maxByVersion] at h
    have he : maxByVersionAux x xs = e := by injection h
    obtain ⟨hmem, hge, hall⟩ := maxByVersionAux_spec xs x
    rw [he] at hmem hge hall
    constructor
    · rcases hmem with he2 | hmem
      · rw [he2]; exact List.mem_cons_self x xs
      · exact List.mem_cons_of_mem x hmem
    · intro y hy
      rcases List.mem_cons.mp hy with he3 | hy
      · rw [he3]; exact hge
      · exact hall y hy

/-- With no kept candidate, latest-version selection fails with the
`GetLatestVersionOfComponentFailed` error. -/
theorem findComponentFiles_latest_empty {cid : ComponentId} {dir : List (List Char)}
    (h : findMatchingFiles (cid ++ ['-']) dir = []) :
    findComponentFiles cid dir none =
      .error (.getLatestVersionOfComponentFailed cid
        "Could not find any component with the given id") := by
  unfold findComponentFiles
  simp only [h]
  rfl

/-- C5 (confirmed): local discovery keeps exactly the directory entries that start
with `{id}-`, end in `.wasm` and whose trailing dash-delimited token of the base
name parses as a decimal u64, silently discarding mismatches; forced selection
returns a kept entry with exactly the forced version and fails with the
get-latest-version error when none carries it; latest selection returns a kept
entry of maximal version and fails with the same error kind when no candidate
exists. -/
theorem C5_local_discovery_and_selection :
    (∀ (cid : ComponentId) (dir : List (List Char)) (e : ComponentVersion × List Char × List Char),
      e ∈ findMatchingFiles (cid ++ ['-']) dir ↔
        ∃ name, name ∈ dir ∧ ((cid ++ ['-']).isPrefixOf name && wasmExt.isSuffixOf name) = true ∧
          extractVersion (name.take (name.length - 5)) = some e.1 ∧
          e.2.1 = name ∧ e.2.2 = name.take (name.length - 5) ++ jsonExt)
    ∧ (∀ (cid : ComponentId) (dir : List (List Char)) (fv : ComponentVersion)
        (e : ComponentVersion × List Char × List Char),
      findComponentFiles cid dir (some fv) = .ok e →
        e.1 = fv ∧ e ∈ findMatchingFiles (cid ++ ['-']) dir)
    ∧ (∀ (cid : ComponentId) (dir : List (List Char)) (fv : ComponentVersion),
      (∀ e ∈ findMatchingFiles (cid ++ ['-']) dir, e.1 ≠ fv) →
        findComponentFiles cid dir (some fv) =
          .error (.getLatestVersionOfComponentFailed cid
            "Could not find any component with the given id and version"))
    ∧ (∀ (cid : ComponentId) (dir : List (List Char))
        (e : ComponentVersion × List Char × List Char),
      findComponentFiles cid dir none = .ok e →
        e ∈ findMatchingFiles (cid ++ ['-']) dir ∧
        ∀ x ∈ findMatchingFiles (cid ++ ['-']) dir, x.1 ≤ e.1)
    ∧ (∀ (cid : ComponentId) (dir : List (List Char)),
      findMatchingFiles (cid ++ ['-']) dir = [] →
        findComponentFiles cid dir none =
          .error (.getLatestVersionOfComponentFailed cid
            "Could not find any component with the given id")) :=
  ⟨fun cid dir e => mem_findMatchingFiles_iff (cid ++ ['-']) dir e,
   fun _ _ _ _ h => findComponentFiles_forced_ok h,
   fun _ _ _ h => findComponentFiles_forced_absent h,
   fun _ _ _ h => findComponentFiles_latest_ok h,
   fun _ _ h => findComponentFiles_latest_empty h⟩

/-- C5 witness: a directory with versions 3 and 7 and one mismatching entry —
forced 3 selects version 3, forced 5 fails, latest selects 7, and an id with no
candidates fails. -/
theorem C5_witness :
    ((3, "id-3.wasm".data, "id-3.json".data).1 = 3 ∧
      (3, "id-3.wasm".data, "id-3.json".data) ∈
        findMatchingFiles ("id".data ++ ['-']) ["id-3.wasm".data, "id-7.wasm".data, "id-x.wasm".data])
    ∧ findComponentFiles "id".data ["id-3.wasm".data, "id-7.wasm".data, "id-x.wasm".data] (some 5) =
        .error (.getLatestVersionOfComponentFailed "id".data
          "Could not find any component with the given id and version")
    ∧ ((7, "id-7.wasm".data, "id-7.json".data) ∈
        findMatchingFiles ("id".data ++ ['-']) ["id-3.wasm".data, "id-7.wasm".data, "id-x.wasm".data] ∧
      ∀ x ∈ findMatchingFiles ("id".data ++ ['-']) ["id-3.wasm".data, "id-7.wasm".data, "id-x.wasm".data],
        x.1 ≤ (7, "id-7.wasm".data, "id-7.json".data).1)
    ∧ findComponentFiles "zz".data ["id-3.wasm".data, "id-7.wasm".data, "id-x.wasm".data] none =
        .error (.getLatestVersionOfComponentFailed "zz".data
          "Could not find any component with the given id") :=
  ⟨C5_local_discovery_and_selection.2.1 "id".data
      ["id-3.wasm".data, "id-7.wasm".data, "id-x.wasm".data] 3
      (3, "id-3.wasm".data, "id-3.json".data) (by decide),
   C5_local_discovery_and_selection.2.2.1 "id".data
      ["id-3.wasm".data, "id-7.wasm".data, "id-x.wasm".data] 5 (by decide),
   C5_local_discovery_and_selection.2.2.2.1 "id".data
      ["id-3.wasm".data, "id-7.wasm".data, "id-x.wasm".data]
      (7, "id-7.wasm".data, "id-7.json".data) (by decide),
   C5_local_discovery_and_selection.2.2.2.2 "zz".data
      ["id-3.wasm".data, "id-7.wasm".data, "id-x.wasm".data] (by decide)⟩

/-- C10 (confirmed): version extraction takes the last dash-delimited token of the
base name, so `id-extra-3.wasm` — which does not match the `{id}-{version}.wasm`
convention — is still accepted as version 3, while an entry whose last token does
not parse is silently skipped and causes no error. -/
theorem C10_extract_version_last_token :
    extractVersion "id-extra-3".data = some 3
    ∧ matchEntry "id-".data "id-extra-3.wasm".data =
        some (3, "id-extra-3.wasm".data, "id-extra-3.json".data)
    ∧ matchEntry "id-".data "id-bad.wasm".data = none
    ∧ findComponentFiles "id".data ["id-bad.wasm".data, "id-extra-3.wasm".data] none =
        .ok (3, "id-extra-3.wasm".data, "id-extra-3.json".data) := by
  refine ⟨by decide, by decide, by decide, by decide⟩

/-- A key found in an association list is one of its entries. -/
theorem lookupKey_mem {K V : Type} [DecidableEq K] {cache : List (K × V)} {k : K} {v : V}
    (h : lookupKey cache k = some v) : (k, v) ∈ cache := by
  induction cache with
  | nil => exact absurd h (by simp [lookupKey])
  | cons kv rest ih =>
    obtain ⟨k2, v2⟩ := kv
    unfold lookupKey at h
    by_cases he : k2 = k
    · rw [if_pos he] at h
      have hv := Option.some.inj h
      subst he
      subst hv
      exact List.mem_cons_self _ _
    · rw [if_neg he] at h
      exact List.mem_cons_of_mem _ (ih h)

/-- Under the version invariant, a cache hit returns metadata whose version is the
key's version. -/
theorem metaInv_lookup {cache : MetaCache} {k : ComponentKey} {m : ComponentMetadata}
    (hinv : MetaCacheVersionInv cache) (h : lookupKey cache k = some m) :
    m.version = k.componentVersion :=
  hinv (k, m) (lookupKey_mem h)

/-- Inserting an entry whose version matches its key preserves the version
invariant. -/
theorem metaInv_insert {cache : MetaCache} {k : ComponentKey} {m : ComponentMetadata}
    (hinv : MetaCacheVersionInv cache) (h : m.version = k.componentVersion) :
    MetaCacheVersionInv ((k, m) :: cache) := by
  intro kv hkv
  rcases List.mem_cons.mp hkv with he | hkv
  · rw [he]
    exact h
  · exact hinv kv hkv

/-- A successful metadata decode copies the registry-reported size and takes the
version from the versioned-component-id wrapper. -/
theorem decodeProtoComponent_ok {c : ProtoComponent} {m : ComponentMetadata}
    (h : decodeProtoComponent c = .ok m) :
    m.size = c.componentSize ∧
    ∃ vid, c.versionedComponentId = some vid ∧ m.version = vid.version := by
  unfold decodeProtoComponent at h
  cases hv : c.versionedComponentId with
  | none => rw [hv] at h; exact absurd h (by simp)
  | some vid =>
    rw [hv] at h
    cases he : decodeExports c.metadata with
    | error e => rw [he] at h; exact absurd h (by simp)
    | ok exports =>
      rw [he] at h
      cases hf : c.files.mapM decodeProtoFile with
      | error e => rw [hf] at h; exact absurd h (by simp)
      | ok files =>
        rw [hf] at h
        have hm := Except.ok.inj h
        refine ⟨?_, vid, rfl, ?_⟩
        · rw [← hm]
        · rw [← hm]

/-- A successful local metadata producer run yields exactly the key's version. -/
theorem getMetadataFromPathProducer_ok_version {fs : LocalFs} {wasmPath propsPath : List Char}
    {cid : ComponentId} {v : ComponentVersion} {m : ComponentMetadata}
    (h : getMetadataFromPathProducer fs wasmPath propsPath cid v = .ok m) :
    m.version = v := by
  unfold getMetadataFromPathProducer at h
  cases hb : fs.files wasmPath with
  | none => rw [hb] at h; exact absurd h (by simp)
  | some bytes =>
    rw [hb] at h
    cases hr : readComponentMetadataFromPropsFile (fs.docs propsPath) with
    | none =>
      simp only [hr] at h
      exact absurd h (by simp)
    | some p =>
      obtain ⟨ct, fl⟩ := p
      simp only [hr] at h
      have hm := Except.ok.inj h
      rw [← hm]

/-- A successful local metadata producer run reports the byte length of the wasm
file as the size. -/
theorem getMetadataFromPathProducer_ok_size {fs : LocalFs} {wasmPath propsPath : List Char}
    {cid : ComponentId} {v : ComponentVersion} {bytes : List Nat} {m : ComponentMetadata}
    (hb : fs.files wasmPath = some bytes)
    (h : getMetadataFromPathProducer fs wasmPath propsPath cid v = .ok m) :
    m.size = bytes.length := by
  unfold getMetadataFromPathProducer at h
  rw [hb] at h
  cases hr : readComponentMetadataFromPropsFile (fs.docs propsPath) with
  | none =>
    simp only [hr] at h
    exact absurd h (by simp)
  | some p =>
    obtain ⟨ct, fl⟩ := p
    simp only [hr] at h
    have hm := Except.ok.inj h
    rw [← hm]

/-- Unfolding equation for the sequential cache semantics. -/
theorem getOrInsertSimple_eq {K V E : Type} [DecidableEq K] (cache : List (K × V)) (k : K)
    (producer : Except E V) :
    getOrInsertSimple cache k producer =
      match lookupKey cache k with
      | some v => (.ok v, cache)
      | none =>
        match producer with
        | .ok v => (.ok v, (k, v) :: cache)
        | .error e => (.error e, cache) := rfl

/-- Unfolding equation for the forced-version branch of the remote metadata
facade. -/
theorem grpcGetMetadata_some_eq (cid : ComponentId) (v : ComponentVersion) (chain : MdChain)
    (cache : MetaCache) :
    ComponentServiceGrpc.getMetadata cid (some v) chain cache =
      getOrInsertSimple cache { componentId := cid, componentVersion := v }
        (getMetadataViaGrpc cid chain.first chain.rest) := rfl

/-- Unfolding equation for the latest branch of the remote metadata facade. -/
theorem grpcGetMetadata_none_eq (cid : ComponentId) (chain : MdChain) (cache : MetaCache) :
    ComponentServiceGrpc.getMetadata cid none chain cache =
      match getMetadataViaGrpc cid chain.first chain.rest with
      | .error e => (.error e, cache)
      | .ok metadata =>
        getOrInsertSimple cache { componentId := cid, componentVersion := metadata.version }
          (.ok metadata) := rfl

/-- Unfolding equation for the local metadata facade. -/
theorem localGetMetadata_eq (fs : LocalFs) (dir : List (List Char)) (cid : ComponentId)
    (forced : Option ComponentVersion) (cache : MetaCache) :
    ComponentServiceLocalFileSystem.getMetadata fs dir cid forced cache =
      match findComponentFiles cid dir forced with
      | .error e => (.error e, cache)
      | .ok (v, wasmPath, propsPath) =>
        ComponentServiceLocalFileSystem.getMetadataFromPath fs wasmPath propsPath cid v cache := rfl

/-- Unfolding equation for the cached local metadata read. -/
theorem localGetMetadataFromPath_eq (fs : LocalFs) (wasmPath propsPath : List Char)
    (cid : ComponentId) (v : ComponentVersion) (cache : MetaCache) :
    ComponentServiceLocalFileSystem.getMetadataFromPath fs wasmPath propsPath cid v cache =
      getOrInsertSimple cache { componentId := cid, componentVersion := v }
        (getMetadataFromPathProducer fs wasmPath propsPath cid v) := rfl

/-- Under the version invariant, a successful local forced-version metadata fetch
returns the requested version and preserves the invariant. -/
theorem local_getMetadata_forced_version_inv {fs : LocalFs} {dir : List (List Char)}
    {cid : ComponentId} {v : ComponentVersion} {cache : MetaCache} {m : ComponentMetadata}
    (hinv : MetaCacheVersionInv cache)
    (h : (ComponentServiceLocalFileSystem.getMetadata fs dir cid (some v) cache).1 = .ok m) :
    m.version = v ∧
    MetaCacheVersionInv (ComponentServiceLocalFileSystem.getMetadata fs dir cid (some v) cache).2 := by
  rw [localGetMetadata_eq] at h ⊢
  cases hfind : findComponentFiles cid dir (some v) with
  | error e =>
    rw [hfind] at h
    exact absurd h (by simp)
  | ok sel =>
    obtain ⟨v2, wasmPath, propsPath⟩ := sel
    have hv2 : v2 = v := (findComponentFiles_forced_ok hfind).1
    subst hv2
    rw [hfind] at h
    replace h : (ComponentServiceLocalFileSystem.getMetadataFromPath fs wasmPath propsPath cid v2 cache).1 = .ok m := h
    show m.version = v2 ∧
      MetaCacheVersionInv (ComponentServiceLocalFileSystem.getMetadataFromPath fs wasmPath propsPath cid v2 cache).2
    rw [localGetMetadataFromPath_eq, getOrInsertSimple_eq] at h ⊢
    cases hl : lookupKey cache { componentId := cid, componentVersion := v2 } with
    | some m2 =>
      rw [hl] at h
      have hm := Except.ok.inj h
      exact ⟨hm ▸ metaInv_lookup hinv hl, hinv⟩
    | none =>
      rw [hl] at h
      cases hp : getMetadataFromPathProducer fs wasmPath propsPath cid v2 with
      | error e => simp [hp] at h
      | ok m2 =>
        rw [hp] at h
        have hm := Except.ok.inj h
        have hver := getMetadataFromPathProducer_ok_version hp
        exact ⟨hm ▸ hver, metaInv_insert hinv hver⟩

/-- Under the version invariant and a registry that answers the requested version,
a successful remote forced-version metadata fetch returns the requested version and
preserves the invariant. -/
theorem remote_getMetadata_forced_version_inv {cid : ComponentId} {v : ComponentVersion}
    {chain : MdChain} {cache : MetaCache} {m : ComponentMetadata}
    (hinv : MetaCacheVersionInv cache)
    (honest : ∀ m0, getMetadataViaGrpc cid chain.first chain.rest = .ok m0 → m0.version = v)
    (h : (ComponentServiceGrpc.getMetadata cid (some v) chain cache).1 = .ok m) :
    m.version = v ∧
    MetaCacheVersionInv (ComponentServiceGrpc.getMetadata cid (some v) chain cache).2 := by
  rw [grpcGetMetadata_some_eq, getOrInsertSimple_eq] at h ⊢
  cases hl : lookupKey cache { componentId := cid, componentVersion := v } with
  | some m2 =>
    rw [hl] at h
    have hm := Except.ok.inj h
    exact ⟨hm ▸ metaInv_lookup hinv hl, hinv⟩
  | none =>
    rw [hl] at h
    cases hp : getMetadataViaGrpc cid chain.first chain.rest with
    | error e => simp [hp] at h
    | ok m0 =>
      rw [hp] at h
      have hm := Except.ok.inj h
      have hver := honest m0 hp
      exact ⟨hm ▸ hver, metaInv_insert hinv hver⟩

/-- A latest-version remote metadata fetch preserves the version invariant: the
fetched value is filed under its own version. -/
theorem remote_getMetadata_latest_inv {cid : ComponentId} {chain : MdChain} {cache : MetaCache}
    (hinv : MetaCacheVersionInv cache) :
    MetaCacheVersionInv (ComponentServiceGrpc.getMetadata cid none chain cache).2 := by
  rw [grpcGetMetadata_none_eq]
  cases hp : getMetadataViaGrpc cid chain.first chain.rest with
  | error e => exact hinv
  | ok metadata =>
    show MetaCacheVersionInv (getOrInsertSimple cache
      { componentId := cid, componentVersion := metadata.version } (.ok metadata)).2
    rw [getOrInsertSimple_eq]
    cases hl : lookupKey cache { componentId := cid, componentVersion := metadata.version } with
    | some m2 => exact hinv
    | none => exact metaInv_insert hinv rfl

/-- Unfolding equation for the traced cache semantics. -/
theorem getOrInsertTraced_eq {K V E : Type} [DecidableEq K] (cache : List (K × V)) (k : K)
    (producer : Except E V × List ProducerAction) :
    getOrInsertTraced cache k producer =
      match lookupKey cache k with
      | some v => (.ok v, cache, [])
      | none =>
        match producer with
        | (.ok v, tr) => (.ok v, (k, v) :: cache, tr)
        | (.error e, tr) => (.error e, cache, tr) := rfl

/-- Unfolding equation for the remote `get`. -/
theorem grpcGet_eq (env : RemoteGetEnv) (cid : ComponentId) (v : ComponentVersion)
    (st : RemoteState) :
    ComponentServiceGrpc.get env cid v st =
      match getOrInsertTraced st.componentCache { componentId := cid, componentVersion := v }
          (componentProducerGrpc env cid v) with
      | (.error e, cc2, tr) =>
        (.error e, { componentCache := cc2, metadataCache := st.metadataCache }, tr)
      | (.ok component, cc2, tr) =>
        match ComponentServiceGrpc.getMetadata cid (some v) env.mdChain st.metadataCache with
        | (.error e, mc2) => (.error e, { componentCache := cc2, metadataCache := mc2 }, tr)
        | (.ok metadata, mc2) =>
          (.ok (component, metadata), { componentCache := cc2, metadataCache := mc2 }, tr) := rfl

/-- Under the version invariant and a registry that answers the requested version,
a successful remote `get` returns metadata carrying the requested version. -/
theorem remote_get_metadata_version {env : RemoteGetEnv} {cid : ComponentId}
    {v : ComponentVersion} {st : RemoteState} {res : Component × ComponentMetadata}
    (hinv : MetaCacheVersionInv st.metadataCache)
    (honest : ∀ m0, getMetadataViaGrpc cid env.mdChain.first env.mdChain.rest = .ok m0 →
      m0.version = v)
    (h : (ComponentServiceGrpc.get env cid v st).1 = .ok res) :
    res.2.version = v := by
  rw [grpcGet_eq] at h
  rcases hg : getOrInsertTraced st.componentCache { componentId := cid, componentVersion := v }
      (componentProducerGrpc env cid v) with ⟨gres, cc2, tr⟩
  rw [hg] at h
  cases gres with
  | error e => simp at h
  | ok component =>
    rcases hm : ComponentServiceGrpc.getMetadata cid (some v) env.mdChain st.metadataCache
      with ⟨mres, mc2⟩
    rw [hm] at h
    cases mres with
    | error e => simp at h
    | ok metadata =>
      have hres := Except.ok.inj h
      have hv := (remote_getMetadata_forced_version_inv hinv honest (by rw [hm])).1
      rw [← hres]
      exact hv

/-- C4 counterexample: a registry response carrying version 7 for a request of
version 5 is decoded and cached under the key `(id, 5)` with `version = 7`: the
returned metadata's version differs from the requested version and the stored
value's version differs from its key's version. -/
theorem C4_counterexample :
    (ComponentServiceGrpc.getMetadata ['c'] (some 5)
        { first := .ok (mkResp 7), rest := [] } []).1 = .ok (mkMeta 7)
    ∧ (mkMeta 7).version = 7
    ∧ (7 : Nat) ≠ 5
    ∧ lookupKey (ComponentServiceGrpc.getMetadata ['c'] (some 5)
        { first := .ok (mkResp 7), rest := [] } []).2
        { componentId := ['c'], componentVersion := 5 } = some (mkMeta 7) :=
  ⟨rfl, rfl, by decide, rfl⟩

/-- C4 (amended): if `get`/`get_metadata` succeeds then `meta.size` equals the
registry-reported `component_size` (remote) or the byte length of the wasm file
(local), and `meta.version` is taken from the registry response; the equalities
`meta.version = v` and the cache-key invariant hold unconditionally in the local
facade and in the remote latest path, and in the remote forced path whenever the
registry response used for `(id, v)` carries version `v` (the code does not
validate this). -/
theorem C4_version_size_invariant_amended :
    (∀ (c : ProtoComponent) (m : ComponentMetadata), decodeProtoComponent c = .ok m →
      m.size = c.componentSize ∧
      ∃ vid, c.versionedComponentId = some vid ∧ m.version = vid.version)
    ∧ (∀ (fs : LocalFs) (wasmPath propsPath : List Char) (cid : ComponentId)
        (v : ComponentVersion) (bytes : List Nat) (m : ComponentMetadata),
      fs.files wasmPath = some bytes →
      getMetadataFromPathProducer fs wasmPath propsPath cid v = .ok m →
      m.version = v ∧ m.size = bytes.length)
    ∧ (∀ (fs : LocalFs) (dir : List (List Char)) (cid : ComponentId) (v : ComponentVersion)
        (cache : MetaCache) (m : ComponentMetadata),
      MetaCacheVersionInv cache →
      (ComponentServiceLocalFileSystem.getMetadata fs dir cid (some v) cache).1 = .ok m →
      m.version = v ∧
      MetaCacheVersionInv (ComponentServiceLocalFileSystem.getMetadata fs dir cid (some v) cache).2)
    ∧ (∀ (cid : ComponentId) (v : ComponentVersion) (chain : MdChain) (cache : MetaCache)
        (m : ComponentMetadata),
      MetaCacheVersionInv cache →
      (∀ m0, getMetadataViaGrpc cid chain.first chain.rest = .ok m0 → m0.version = v) →
      (ComponentServiceGrpc.getMetadata cid (some v) chain cache).1 = .ok m →
      m.version = v ∧
      MetaCacheVersionInv (ComponentServiceGrpc.getMetadata cid (some v) chain cache).2)
    ∧ (∀ (cid : ComponentId) (chain : MdChain) (cache : MetaCache),
      MetaCacheVersionInv cache →
      MetaCacheVersionInv (ComponentServiceGrpc.getMetadata cid none chain cache).2)
    ∧ (∀ (env : RemoteGetEnv) (cid : ComponentId) (v : ComponentVersion) (st : RemoteState)
        (res : Component × ComponentMetadata),
      MetaCacheVersionInv st.metadataCache →
      (∀ m0, getMetadataViaGrpc cid env.mdChain.first env.mdChain.rest = .ok m0 → m0.version = v) →
      (ComponentServiceGrpc.get env cid v st).1 = .ok res →
      res.2.version = v) :=
  ⟨fun _ _ h => decodeProtoComponent_ok h,
   fun _ _ _ _ _ _ _ hb h =>
     ⟨getMetadataFromPathProducer_ok_version h, getMetadataFromPathProducer_ok_size hb h⟩,
   fun _ _ _ _ _ _ hinv h => local_getMetadata_forced_version_inv hinv h,
   fun _ _ _ _ _ hinv honest h => remote_getMetadata_forced_version_inv hinv honest h,
   fun _ _ _ hinv => remote_getMetadata_latest_inv hinv,
   fun _ _ _ _ _ hinv honest h => remote_get_metadata_version hinv honest h⟩

/-- C4 witness: an honest registry answer of version 5 for a forced request of 5
yields version 5 and preserves the invariant; a local producer run over a 3-byte
wasm file yields version 5 and size 3. -/
theorem C4_witness :
    ((mkMeta 5).version = 5 ∧
      MetaCacheVersionInv (ComponentServiceGrpc.getMetadata ['c'] (some 5) (mdChainOk 5) []).2)
    ∧ (({ version := 5, size := 3, memories := [], exports := [], componentType := .durable,
          files := [] } : ComponentMetadata).version = 5 ∧
       ({ version := 5, size := 3, memories := [], exports := [], componentType := .durable,
          files := [] } : ComponentMetadata).size = ([0, 1, 2] : List Nat).length) :=
  ⟨C4_version_size_invariant_amended.2.2.2.1 ['c'] 5 (mdChainOk 5) [] (mkMeta 5)
      (by decide)
      (fun m0 h0 => by
        have heq : mkMeta 5 = m0 := Except.ok.inj h0
        rw [← heq]
        rfl)
      rfl,
   C4_version_size_invariant_amended.2.1 fsAnalysisFails ['w'] ['p'] ['c'] 5 [0, 1, 2]
      { version := 5, size := 3, memories := [], exports := [], componentType := .durable,
        files := [] }
      rfl rfl⟩

/-- C7 (confirmed): in the local metadata producer, failed wasm static analysis
degrades to empty memories and exports while the call still succeeds, whereas a
failed sidecar read fails the whole metadata call. -/
theorem C7_local_analysis_asymmetry :
    (∀ (fs : LocalFs) (wasmPath propsPath : List Char) (cid : ComponentId)
        (v : ComponentVersion) (bytes : List Nat) (ct : ComponentType)
        (files : List InitialComponentFile) (cache : MetaCache),
      fs.files wasmPath = some bytes →
      analyzeMemoriesAndExports fs wasmPath = none →
      readComponentMetadataFromPropsFile (fs.docs propsPath) = some (ct, files) →
      lookupKey cache { componentId := cid, componentVersion := v } = none →
      (ComponentServiceLocalFileSystem.getMetadataFromPath fs wasmPath propsPath cid v cache).1 =
        .ok { version := v, size := bytes.length, memories := [], exports := [],
              componentType := ct, files := files })
    ∧ (∀ (fs : LocalFs) (wasmPath propsPath : List Char) (cid : ComponentId)
        (v : ComponentVersion) (bytes : List Nat) (cache : MetaCache),
      fs.files wasmPath = some bytes →
      readComponentMetadataFromPropsFile (fs.docs propsPath) = none →
      lookupKey cache { componentId := cid, componentVersion := v } = none →
      (ComponentServiceLocalFileSystem.getMetadataFromPath fs wasmPath propsPath cid v cache).1 =
        .error (.getLatestVersionOfComponentFailed cid
          "Failed to read properties of component")) := by
  constructor
  · intro fs wasmPath propsPath cid v bytes ct files cache h1 h2 h3 h4
    have hp : getMetadataFromPathProducer fs wasmPath propsPath cid v =
        .ok { version := v, size := bytes.length, memories := [], exports := [],
              componentType := ct, files := files } := by
      unfold getMetadataFromPathProducer
      rw [h1, h2, h3]
      rfl
    rw [localGetMetadataFromPath_eq, getOrInsertSimple_eq, h4, hp]
  · intro fs wasmPath propsPath cid v bytes cache h1 h2 h3
    have hp : getMetadataFromPathProducer fs wasmPath propsPath cid v =
        .error (.getLatestVersionOfComponentFailed cid
          "Failed to read properties of component") := by
      unfold getMetadataFromPathProducer
      rw [h1, h2]
    rw [localGetMetadataFromPath_eq, getOrInsertSimple_eq, h3, hp]

/-- C7 witness: concrete local filesystems exercising both branches. -/
theorem C7_witness :
    (ComponentServiceLocalFileSystem.getMetadataFromPath fsAnalysisFails ['w'] ['p'] ['c'] 5 []).1 =
      .ok { version := 5, size := 3, memories := [], exports := [], componentType := .durable,
            files := [] }
    ∧ (ComponentServiceLocalFileSystem.getMetadataFromPath fsSidecarMissing ['w'] ['p'] ['c'] 5 []).1 =
      .error (.getLatestVersionOfComponentFailed ['c'] "Failed to read properties of component") :=
  ⟨C7_local_analysis_asymmetry.1 fsAnalysisFails ['w'] ['p'] ['c'] 5 [0, 1, 2] .durable [] []
      rfl rfl rfl rfl,
   C7_local_analysis_asymmetry.2 fsSidecarMissing ['w'] ['p'] ['c'] 5 [0, 1, 2] []
      rfl rfl rfl⟩

/-- A latest-version fetch that succeeds against a cache missing the fetched key
returns the fetched metadata and files it under `(id, metadata.version)`. -/
theorem grpcGetMetadata_none_of_fetch_ok {cid : ComponentId} {chain : MdChain}
    {cache : MetaCache} {m : ComponentMetadata}
    (hf : getMetadataViaGrpc cid chain.first chain.rest = .ok m)
    (hl : lookupKey cache { componentId := cid, componentVersion := m.version } = none) :
    ComponentServiceGrpc.getMetadata cid none chain cache =
      (.ok m, ({ componentId := cid, componentVersion := m.version }, m) :: cache) := by
  rw [grpcGetMetadata_none_eq, hf]
  show getOrInsertSimple cache { componentId := cid, componentVersion := m.version } (.ok m) = _
  rw [getOrInsertSimple_eq, hl]

/-- C8 (confirmed): a latest metadata call always performs the RPC — no metadata
cache probe precedes it — and files the fetched result under
`(id, metadata.version)`; two successive latest calls against registry versions
`m1.version` then `m2.version` return those versions and leave cache entries under
both keys. -/
theorem C8_latest_bypass (cid : ComponentId) (chain1 chain2 : MdChain)
    (m1 m2 : ComponentMetadata) (cache : MetaCache)
    (h1 : getMetadataViaGrpc cid chain1.first chain1.rest = .ok m1)
    (h2 : getMetadataViaGrpc cid chain2.first chain2.rest = .ok m2)
    (h3 : lookupKey cache { componentId := cid, componentVersion := m1.version } = none)
    (h4 : lookupKey cache { componentId := cid, componentVersion := m2.version } = none)
    (h5 : m1.version ≠ m2.version) :
    (ComponentServiceGrpc.getMetadata cid none chain1 cache).1 = .ok m1 ∧
    lookupKey (ComponentServiceGrpc.getMetadata cid none chain1 cache).2
      { componentId := cid, componentVersion := m1.version } = some m1 ∧
    (ComponentServiceGrpc.getMetadata cid none chain2
      (ComponentServiceGrpc.getMetadata cid none chain1 cache).2).1 = .ok m2 ∧
    lookupKey (ComponentServiceGrpc.getMetadata cid none chain2
      (ComponentServiceGrpc.getMetadata cid none chain1 cache).2).2
      { componentId := cid, componentVersion := m1.version } = some m1 ∧
    lookupKey (ComponentServiceGrpc.getMetadata cid none chain2
      (ComponentServiceGrpc.getMetadata cid none chain1 cache).2).2
      { componentId := cid, componentVersion := m2.version } = some m2 := by
  have hk : ({ componentId := cid, componentVersion := m1.version } : ComponentKey) ≠
      { componentId := cid, componentVersion := m2.version } := by
    intro hcontra
    exact h5 (congrArg ComponentKey.componentVersion hcontra)
  have eA := grpcGetMetadata_none_of_fetch_ok h1 h3
  have e2 : lookupKey (({ componentId := cid, componentVersion := m1.version }, m1) :: cache)
      { componentId := cid, componentVersion := m2.version } = none := by
    unfold lookupKey
    rw [if_neg hk]
    exact h4
  have eB := grpcGetMetadata_none_of_fetch_ok h2 e2
  refine ⟨by rw [eA], ?_, by rw [eA, eB], ?_, ?_⟩
  · rw [eA]
    simp [lookupKey]
  · rw [eA, eB]
    simp [lookupKey, Ne.symm hk]
  · rw [eA, eB]
    simp [lookupKey]

/-- C8 witness: registry versions 5 then 6 from an empty cache — the calls return
versions 5 and 6 and both cache entries are present afterwards. -/
theorem C8_witness :
    (ComponentServiceGrpc.getMetadata ['c'] none (mdChainOk 5) []).1 = .ok (mkMeta 5) ∧
    lookupKey (ComponentServiceGrpc.getMetadata ['c'] none (mdChainOk 5) []).2
      { componentId := ['c'], componentVersion := (mkMeta 5).version } = some (mkMeta 5) ∧
    (ComponentServiceGrpc.getMetadata ['c'] none (mdChainOk 6)
      (ComponentServiceGrpc.getMetadata ['c'] none (mdChainOk 5) []).2).1 = .ok (mkMeta 6) ∧
    lookupKey (ComponentServiceGrpc.getMetadata ['c'] none (mdChainOk 6)
      (ComponentServiceGrpc.getMetadata ['c'] none (mdChainOk 5) []).2).2
      { componentId := ['c'], componentVersion := (mkMeta 5).version } = some (mkMeta 5) ∧
    lookupKey (ComponentServiceGrpc.getMetadata ['c'] none (mdChainOk 6)
      (ComponentServiceGrpc.getMetadata ['c'] none (mdChainOk 5) []).2).2
      { componentId := ['c'], componentVersion := (mkMeta 6).version } = some (mkMeta 6) :=
  C8_latest_bypass ['c'] (mdChainOk 5) (mdChainOk 6) (mkMeta 5) (mkMeta 6) []
    rfl rfl rfl rfl (by decide)

/-- C9 (confirmed): the remote `get` populates the component cache before fetching
metadata — a failed metadata fetch is returned to the caller while the compiled
component stays cached under `(id, v)` — and a later `get` for the same key runs no
download or compile work and reuses the cached artifact. -/
theorem C9_component_cached_before_metadata :
    (∀ (env : RemoteGetEnv) (cid : ComponentId) (v : ComponentVersion) (st : RemoteState)
        (c : Component) (tr : List ProducerAction) (e : GolemError),
      lookupKey st.componentCache { componentId := cid, componentVersion := v } = none →
      componentProducerGrpc env cid v = (.ok c, tr) →
      (ComponentServiceGrpc.getMetadata cid (some v) env.mdChain st.metadataCache).1 = .error e →
      (ComponentServiceGrpc.get env cid v st).1 = .error e ∧
      lookupKey (ComponentServiceGrpc.get env cid v st).2.1.componentCache
        { componentId := cid, componentVersion := v } = some c)
    ∧ (∀ (env : RemoteGetEnv) (cid : ComponentId) (v : ComponentVersion) (st : RemoteState)
        (c : Component),
      lookupKey st.componentCache { componentId := cid, componentVersion := v } = some c →
      (ComponentServiceGrpc.get env cid v st).2.2 = [] ∧
      ∀ m, (ComponentServiceGrpc.getMetadata cid (some v) env.mdChain st.metadataCache).1 = .ok m →
        (ComponentServiceGrpc.get env cid v st).1 = .ok (c, m)) := by
  constructor
  · intro env cid v st c tr e hlook hprod hmeta
    have hg : getOrInsertTraced st.componentCache { componentId := cid, componentVersion := v }
        (componentProducerGrpc env cid v) =
        (.ok c, ({ componentId := cid, componentVersion := v }, c) :: st.componentCache, tr) := by
      rw [getOrInsertTraced_eq, hlook, hprod]
    rcases hm : ComponentServiceGrpc.getMetadata cid (some v) env.mdChain st.metadataCache
      with ⟨mres, mc2⟩
    rw [hm] at hmeta
    have hmres : mres = .error e := hmeta
    subst hmres
    constructor
    · rw [grpcGet_eq, hg, hm]
    · rw [grpcGet_eq, hg, hm]
      show lookupKey (({ componentId := cid, componentVersion := v }, c) :: st.componentCache)
        { componentId := cid, componentVersion := v } = some c
      simp [lookupKey]
  · intro env cid v st c hlook
    have hg : getOrInsertTraced st.componentCache { componentId := cid, componentVersion := v }
        (componentProducerGrpc env cid v) = (.ok c, st.componentCache, []) := by
      rw [getOrInsertTraced_eq, hlook]
    constructor
    · rw [grpcGet_eq, hg]
      rcases hm : ComponentServiceGrpc.getMetadata cid (some v) env.mdChain st.metadataCache
        with ⟨mres, mc2⟩
      cases mres <;> rfl
    · intro m hm2
      rcases hm : ComponentServiceGrpc.getMetadata cid (some v) env.mdChain st.metadataCache
        with ⟨mres, mc2⟩
      rw [hm] at hm2
      have hmres : mres = .ok m := hm2
      subst hmres
      rw [grpcGet_eq, hg, hm]

/-- C9 witness: a first `get` whose download and compile succeed but whose metadata
RPC fails returns the metadata error while caching `Component 7`; a second `get`
against that cache performs no producer work and returns the cached artifact with
the now-available metadata. -/
theorem C9_witness :
    ((ComponentServiceGrpc.get (remoteEnvDownloadCompile mdChainFail) ['c'] 5
        { componentCache := [], metadataCache := [] }).1 =
      .error (.getLatestVersionOfComponentFailed ['c'] "Transport error: connection refused")
    ∧ lookupKey (ComponentServiceGrpc.get (remoteEnvDownloadCompile mdChainFail) ['c'] 5
        { componentCache := [], metadataCache := [] }).2.1.componentCache
        { componentId := ['c'], componentVersion := 5 } = some { tag := 7 })
    ∧ ((ComponentServiceGrpc.get (remoteEnvDownloadCompile (mdChainOk 5)) ['c'] 5
        { componentCache := [({ componentId := ['c'], componentVersion := 5 }, { tag := 7 })],
          metadataCache := [] }).2.2 = []
    ∧ (ComponentServiceGrpc.get (remoteEnvDownloadCompile (mdChainOk 5)) ['c'] 5
        { componentCache := [({ componentId := ['c'], componentVersion := 5 }, { tag := 7 })],
          metadataCache := [] }).1 = .ok ({ tag := 7 }, mkMeta 5)) :=
  ⟨C9_component_cached_before_metadata.1 (remoteEnvDownloadCompile mdChainFail) ['c'] 5
      { componentCache := [], metadataCache := [] } { tag := 7 }
      [.download, .compile, .putCompiled]
      (.getLatestVersionOfComponentFailed ['c'] "Transport error: connection refused")
      rfl rfl rfl,
   ⟨(C9_component_cached_before_metadata.2 (remoteEnvDownloadCompile (mdChainOk 5)) ['c'] 5
      { componentCache := [({ componentId := ['c'], componentVersion := 5 }, { tag := 7 })],
        metadataCache := [] } { tag := 7 } rfl).1,
    (C9_component_cached_before_metadata.2 (remoteEnvDownloadCompile (mdChainOk 5)) ['c'] 5
      { componentCache := [({ componentId := ['c'], componentVersion := 5 }, { tag := 7 })],
        metadataCache := [] } { tag := 7 } rfl).2 (mkMeta 5) rfl⟩⟩
